import Mathlib

/-!
Formal model of the Alto-AI interview core (Go package `interview`):
the answer-analysis validation pipeline (`analyzer.go`), score
normalisation and session summaries, and the question-selection
algorithm (`questions.go`).

Modelling conventions:
* Go machine integers are modelled as `Int` (the program only ever adds
  at most seven decoded JSON numbers, far from the 64-bit range, so no
  wrap-around is reachable; where both sides of an equation are computed
  by the same Go additions, the wrapped and unwrapped semantics agree).
* Go `float64` arithmetic is modelled as exact rational arithmetic `ℚ`.
  At every comparison the program performs, the float64 result and the
  exact rational result agree for all values the program can reach;
  each definition's comment records the argument.
* Go strings (byte slices) are modelled as `List Char` where the byte
  level matters (the brace scanner), and as `String` elsewhere.
* Fallible Go functions returning `(T, error)` are modelled as `Except`.
-/

namespace AltoAI

/-- `AnalysisScores` (types.go): per-criterion scores are nullable
(`*int`, `1-5 or null`), plus the stored total. -/
structure AnalysisScores where
  migrationIntent : Option Int
  financialUnderstanding : Option Int
  academicCredibility : Option Int
  specificityResearch : Option Int
  consistency : Option Int
  communicationQuality : Option Int
  redFlags : Option Int
  totalScore : Int
  deriving Repr, DecidableEq

/-- `FeedbackByCriterion` (types.go). -/
structure FeedbackByCriterion where
  migrationIntent : String
  financialUnderstanding : String
  academicCredibility : String
  specificityResearch : String
  consistency : String
  communicationQuality : String
  redFlags : String
  deriving Repr, DecidableEq

/-- `StructuredFeedback` (types.go). -/
structure StructuredFeedback where
  overall : String
  byCriterion : FeedbackByCriterion
  improvements : List String
  deriving Repr, DecidableEq

/-- `AnalysisResponse` (types.go). -/
structure AnalysisResponse where
  scores : AnalysisScores
  classification : String
  feedback : StructuredFeedback
  deriving Repr, DecidableEq

/-- `AnalysisRecord` (types.go); the `CreatedAt` timestamp is not
modelled (no claim mentions it). -/
structure AnalysisRecord where
  id : String
  sessionId : String
  question : String
  answer : String
  analysis : AnalysisResponse
  deriving Repr, DecidableEq

/-- `SessionSummary` (types.go); `SessionID` and the `CompletedAt`
timestamp (`time.Now()`) are not modelled. `AverageScore` is a Go
`float64`, modelled as `ℚ` (it is an integer divided by a small
positive integer, exactly representable in both semantics for every
reachable value). -/
structure SessionSummary where
  totalQuestions : Nat
  averageScore : ℚ
  overallGrade : String
  strongAreas : List String
  weakAreas : List String
  commonRedFlags : List String
  recommendation : String
  deriving Repr, DecidableEq

/-- `calculateTotalScore` (analyzer.go:426-450): sums only the non-null
criteria. -/
def calculateTotalScore (scores : AnalysisScores) : Int :=
  (0 + (scores.migrationIntent.getD 0)
     + (scores.financialUnderstanding.getD 0)
     + (scores.academicCredibility.getD 0)
     + (scores.specificityResearch.getD 0)
     + (scores.consistency.getD 0)
     + (scores.communicationQuality.getD 0)
     + (scores.redFlags.getD 0))

/-- `countRelevantCriteria` (analyzer.go:455-479): counts the non-null
criteria. The Go result is an `int` that is always in `[0, 7]`;
modelled as `Nat`. -/
def countRelevantCriteria (scores : AnalysisScores) : Nat :=
  (if scores.migrationIntent.isSome then 1 else 0)
  + (if scores.financialUnderstanding.isSome then 1 else 0)
  + (if scores.academicCredibility.isSome then 1 else 0)
  + (if scores.specificityResearch.isSome then 1 else 0)
  + (if scores.consistency.isSome then 1 else 0)
  + (if scores.communicationQuality.isSome then 1 else 0)
  + (if scores.redFlags.isSome then 1 else 0)

/-- `getClassificationFromScore` (analyzer.go:483-534).  The Go `switch`
on `criteriaCount` is written as an if-chain (same semantics).  The
default branch computes `percentage := float64(totalScore) /
float64(maxScore) * 100` and compares it with `>= 85 / 70 / 50`; this
is modelled by the exact cross-multiplied integer comparisons
`100*totalScore >= 85*maxScore` etc.  The two agree for every reachable
input: `criteriaCount` is a criterion count `<= 7`, so `maxScore <= 35`,
and for such small operands the float64 quotient-times-100 differs from
the exact rational by far less than the distance of any non-equal value
to the thresholds, while the only exact-equality boundary cases in the
default branch (`totalScore/maxScore` exactly `0.7` or `0.5`) round to
exactly `70.0` resp. `50.0` in float64. -/
def getClassificationFromScore (totalScore : Int) (criteriaCount : Nat) : String :=
  if criteriaCount = 0 then "Weak"
  else
    let maxScore : Int := (criteriaCount : Int) * 5
    if criteriaCount = 3 then
      if totalScore ≥ 13 then "Excellent"
      else if totalScore ≥ 10 then "Good"
      else if totalScore ≥ 7 then "Average"
      else "Weak"
    else if criteriaCount = 4 then
      if totalScore ≥ 17 then "Excellent"
      else if totalScore ≥ 13 then "Good"
      else if totalScore ≥ 9 then "Average"
      else "Weak"
    else if criteriaCount = 5 then
      if totalScore ≥ 21 then "Excellent"
      else if totalScore ≥ 17 then "Good"
      else if totalScore ≥ 12 then "Average"
      else "Weak"
    else
      if 100 * totalScore ≥ 85 * maxScore then "Excellent"
      else if 100 * totalScore ≥ 70 * maxScore then "Good"
      else if 100 * totalScore ≥ 50 * maxScore then "Average"
      else "Weak"

/-- The classification tier exactly as worded by claim C2 / spec §4.5:
"3 criteria: Excellent >=13, Good >=10, Average >=7, else Weak;
4 criteria: >=17/>=13/>=9; 5 criteria: >=21/>=17/>=12; otherwise
Excellent >= 85% of max, Good >= 70%, Average >= 50%, else Weak".
This definition follows the claim's words (percentages as exact
rationals) and is compared against the source-derived
`getClassificationFromScore`. -/
def claimTier (totalScore : Int) (criteriaCount : Nat) : String :=
  if criteriaCount = 3 then
    if totalScore ≥ 13 then "Excellent"
    else if totalScore ≥ 10 then "Good"
    else if totalScore ≥ 7 then "Average"
    else "Weak"
  else if criteriaCount = 4 then
    if totalScore ≥ 17 then "Excellent"
    else if totalScore ≥ 13 then "Good"
    else if totalScore ≥ 9 then "Average"
    else "Weak"
  else if criteriaCount = 5 then
    if totalScore ≥ 21 then "Excellent"
    else if totalScore ≥ 17 then "Good"
    else if totalScore ≥ 12 then "Average"
    else "Weak"
  else
    let maxScore : ℚ := (criteriaCount : ℚ) * 5
    if (totalScore : ℚ) ≥ 85 / 100 * maxScore then "Excellent"
    else if (totalScore : ℚ) ≥ 70 / 100 * maxScore then "Good"
    else if (totalScore : ℚ) ≥ 50 / 100 * maxScore then "Average"
    else "Weak"

/-- The tail of `callGPTAPI` (analyzer.go:408-420): after a successful
JSON decode, the total score is recomputed from the non-null criteria,
the criterion count is recomputed, and the classification claimed by
the external reply is overridden whenever it disagrees with the
recomputed one (the mismatch is only logged, never an error). -/
def validateAnalysis (analysis : AnalysisResponse) : AnalysisResponse :=
  let recomputed : AnalysisResponse :=
    { analysis with
      scores := { analysis.scores with totalScore := calculateTotalScore analysis.scores } }
  let criteriaCount := countRelevantCriteria recomputed.scores
  let correctClassification :=
    getClassificationFromScore recomputed.scores.totalScore criteriaCount
  if recomputed.classification ≠ correctClassification then
    { recomputed with classification := correctClassification }
  else recomputed

/-- `getGradeFromScore` (analyzer.go:536-558).  The Go thresholds are
`int(float64(maxScore) * 0.85)`, `int(float64(maxScore) * 0.70)`,
`int(float64(maxScore) * 0.50)` — float64 products truncated toward
zero.  `criteriaCount` at the only call site is an average criterion
count in `[1, 7]`, so `maxScore ∈ {5, …, 35}`; for every one of these
the float64 product truncates to exactly the floor of the rational
product (the products `maxScore * 0.70` that are rationally integral,
at `maxScore ∈ {10, 20, 30}`, round to exactly that integer in float64
— verified by exact binary analysis), which is what the integer
divisions below compute. -/
def getGradeFromScore (score : Int) (criteriaCount : Nat) : String :=
  if criteriaCount = 0 then "D"
  else
    let maxScore : Int := (criteriaCount : Int) * 5
    let excellentThreshold : Int := maxScore * 85 / 100
    let goodThreshold : Int := maxScore * 70 / 100
    let averageThreshold : Int := maxScore * 50 / 100
    if score ≥ excellentThreshold then "A"
    else if score ≥ goodThreshold then "B"
    else if score ≥ averageThreshold then "C"
    else "D"

/-- `generateRecommendation` (analyzer.go:560-569).  The `analyses`
parameter is unused in the Go body as well. -/
def generateRecommendation (avgScore : ℚ) (_analyses : List AnalysisRecord) : String :=
  if avgScore ≥ 32 then
    "Excellent performance! You\x27re well-prepared. Focus on maintaining confidence and natural delivery during the actual interview."
  else if avgScore ≥ 25 then
    "Good foundation. Review the specific feedback for each answer and practice the improved versions. Focus on being more specific and confident in your responses."
  else if avgScore ≥ 18 then
    "You need more practice. Focus on providing specific examples, showing strong ties to your home country, and demonstrating clear post-graduation plans."
  else
    "Significant improvement needed. Consider working with an advisor to strengthen your answers. Focus on clarity, specificity, and addressing visa officer concerns about immigrant intent."

/-- The seven criteria in declaration order, each with its JSON key and
accessor.  Go iterates over a `map[string]int` whose iteration order is
unspecified; the model fixes the declaration order (no claim depends on
the order of the derived lists). -/
def criteriaTable : List (String × (AnalysisScores → Option Int)) :=
  [("migration_intent", fun s => s.migrationIntent),
   ("financial_understanding", fun s => s.financialUnderstanding),
   ("academic_credibility", fun s => s.academicCredibility),
   ("specificity_research", fun s => s.specificityResearch),
   ("consistency", fun s => s.consistency),
   ("communication_quality", fun s => s.communicationQuality),
   ("red_flags", fun s => s.redFlags)]

/-- `formatCriterionName` (analyzer.go:719-738). -/
def formatCriterionName (criterion : String) : String :=
  if criterion = "migration_intent" then "Strong return intent"
  else if criterion = "financial_understanding" then "Financial understanding"
  else if criterion = "academic_credibility" then "Academic credibility"
  else if criterion = "specificity_research" then "Specificity & research"
  else if criterion = "consistency" then "Consistency"
  else if criterion = "communication_quality" then "Communication quality"
  else if criterion = "red_flags" then "No red flags"
  else criterion

/-- `extractCommonStrengths` (analyzer.go:596-641): criteria scoring
`>= 4` (non-null) in at least `len(analyses)/2` answers.  A criterion
enters the Go count map only when incremented at least once, hence the
`1 <= cnt` conjunct. -/
def extractCommonStrengths (analyses : List AnalysisRecord) : List String :=
  (criteriaTable.filter (fun kg =>
      let cnt := analyses.countP (fun r =>
        match kg.2 r.analysis.scores with
        | some v => decide (4 ≤ v)
        | none => false)
      decide (1 ≤ cnt ∧ analyses.length / 2 ≤ cnt))).map
    (fun kg => formatCriterionName kg.1)

/-- `extractCommonWeaknesses` (analyzer.go:643-680): criteria scoring
`<= 3` (non-null) in at least `len(analyses)/2` answers. -/
def extractCommonWeaknesses (analyses : List AnalysisRecord) : List String :=
  (criteriaTable.filter (fun kg =>
      let cnt := analyses.countP (fun r =>
        match kg.2 r.analysis.scores with
        | some v => decide (v ≤ 3)
        | none => false)
      decide (1 ≤ cnt ∧ analyses.length / 2 ≤ cnt))).map
    (fun kg => formatCriterionName kg.1)

/-- The red-flag descriptions of `extractCommonRedFlags`
(analyzer.go:682-717), each with the criterion accessor that triggers
it (criterion non-null and `<= 2` in any single answer). -/
def redFlagTable : List (String × (AnalysisScores → Option Int)) :=
  [("Shows potential immigration intent", fun s => s.migrationIntent),
   ("Poor financial understanding or planning", fun s => s.financialUnderstanding),
   ("Weak academic fit or credibility", fun s => s.academicCredibility),
   ("Lacks specific knowledge or research", fun s => s.specificityResearch),
   ("Inconsistent answers or contradictions", fun s => s.consistency),
   ("Poor communication or clarity", fun s => s.communicationQuality),
   ("Major red flags detected", fun s => s.redFlags)]

/-- `extractCommonRedFlags` (analyzer.go:682-717). -/
def extractCommonRedFlags (analyses : List AnalysisRecord) : List String :=
  (redFlagTable.filter (fun kg =>
      analyses.any (fun r =>
        match kg.2 r.analysis.scores with
        | some v => decide (v ≤ 2)
        | none => false))).map Prod.fst

/-- Go `int(f)` on a `float64`: truncation toward zero, modelled on the
exact rational. -/
def truncToInt (q : ℚ) : Int :=
  if 0 ≤ q then ⌊q⌋ else ⌈q⌉

/-- The `totalScore` accumulator of `GenerateSessionSummary`
(analyzer.go:261-264): the sum of the stored totals. -/
def sumTotals (analyses : List AnalysisRecord) : Int :=
  (analyses.map (fun r => r.analysis.scores.totalScore)).sum

/-- The `totalCriteriaCount` accumulator of `GenerateSessionSummary`
(analyzer.go:262-265). -/
def sumCriteria (analyses : List AnalysisRecord) : Nat :=
  (analyses.map (fun r => countRelevantCriteria r.analysis.scores)).sum

/-- `avgScore := float64(totalScore) / float64(len(analyses))`
(analyzer.go:268), modelled exactly. -/
def meanTotal (analyses : List AnalysisRecord) : ℚ :=
  (sumTotals analyses : ℚ) / (analyses.length : ℚ)

/-- `avgCriteriaCount` (analyzer.go:269-272): integer division, with
the zero case bumped to 1. -/
def avgCriteriaCount (analyses : List AnalysisRecord) : Nat :=
  let a := sumCriteria analyses / analyses.length
  if a = 0 then 1 else a

/-- `GenerateSessionSummary` (analyzer.go:256-284).  `avgScore` is a
float64 mean, modelled exactly in `ℚ`; `int(avgScore)` is truncation
toward zero (`truncToInt`). -/
def GenerateSessionSummary (analyses : List AnalysisRecord) :
    Except String SessionSummary :=
  if analyses.length = 0 then Except.error "no analyses provided"
  else
    Except.ok
      { totalQuestions := analyses.length
        averageScore := meanTotal analyses
        overallGrade :=
          getGradeFromScore (truncToInt (meanTotal analyses)) (avgCriteriaCount analyses)
        strongAreas := extractCommonStrengths analyses
        weakAreas := extractCommonWeaknesses analyses
        commonRedFlags := extractCommonRedFlags analyses
        recommendation := generateRecommendation (meanTotal analyses) analyses }

/-- `ScoreToPercentage` (analyzer.go:574-594).  The Go float64 result
`float64(score-minScore) * (100.0/float64(scoreRange))` is modelled as
the exact rational; every claim about it is stated over this model. -/
def ScoreToPercentage (score criteriaCount : Int) : ℚ :=
  if criteriaCount = 0 then 0
  else
    let maxScore := criteriaCount * 5
    let minScore := criteriaCount * 1
    let s1 := if score < minScore then minScore else score
    let s2 := if s1 > maxScore then maxScore else s1
    let scoreRange := maxScore - minScore
    if scoreRange = 0 then 100
    else ((s2 - minScore : Int) : ℚ) * (100 / ((scoreRange : Int) : ℚ))

/-- `Question` (types.go); the graph-linkage fields (`NextID`,
`FollowupCandidates`, `Tags`) exist but are never set by the selection
code. -/
structure Question where
  id : String
  category : String
  text : String
  nextID : String
  followupCandidates : List String
  tags : List String
  deriving Repr, DecidableEq

/-- `QuestionSelectionRules` (questions.go:61-68): category → quota.
The Go value is a `map[string]int`; modelled as an association list in
declaration order (Go map iteration order is unspecified; only the key
set matters to any claim). -/
def QuestionSelectionRules : List (String × Nat) :=
  [("Purpose of Study", 1),
   ("Academic Background", 1),
   ("University Choice", 1),
   ("Financial Capability", 1),
   ("Post-Graduation Plans", 1),
   ("Immigration Intent", 1)]

/-- The categories required by the selection rules. -/
def requiredCategories : List String := QuestionSelectionRules.map Prod.fst

/-- `LoadQuestions` (questions.go:80-104), from the point where the
file has been read and JSON-decoded (file I/O and `json.Unmarshal` are
outside the model; their result is the `categories` mapping, modelled
as an association list).  The Go code copies the decoded map into the
global `QuestionsByCategory` and then checks that every category named
by `QuestionSelectionRules` is a key of the map (`!ok` — presence only,
emptiness is not checked).  Which missing category is reported first
depends on Go map iteration order; the model reports the first in
declaration order (success vs. failure is order-independent). -/
def LoadQuestions (categories : List (String × List String)) :
    Except String (List (String × List String)) :=
  match requiredCategories.find? (fun c => (categories.lookup c).isNone) with
  | some c =>
      Except.error ("required category \x27" ++ c ++ "\x27 not found in questions file")
  | none => Except.ok categories

/-- The bank, as the selection code reads it: `QuestionsByCategory` is
`map[string][]string`; `bank c = none` models a missing key (`!ok`). -/
def Bank : Type := String → Option (List String)

/-- The question list a bank associates to a category (`[]` for a
missing category). -/
def bankList (bank : Bank) (c : String) : List String := (bank c).getD []

/-- `sanitizeCategory` (questions.go:284-295), per character. -/
def sanitizeChar (c : Char) : String :=
  if ('a' ≤ c ∧ c ≤ 'z') ∨ ('A' ≤ c ∧ c ≤ 'Z') ∨ ('0' ≤ c ∧ c ≤ '9') then
    String.singleton c
  else if c = ' ' ∨ c = '/' then "_"
  else ""

/-- `sanitizeCategory` (questions.go:284-295). -/
def sanitizeCategory (category : String) : String :=
  category.toList.foldl (fun result c => result ++ sanitizeChar c) ""

/-- Build the `Question` appended by the selection code:
`fmt.Sprintf("q%d_%s", len(selectedQuestions)+1, sanitizeCategory(category))`
with `idx = len(selectedQuestions)`. -/
def mkQuestion (idx : Nat) (category text : String) : Question :=
  { id := "q" ++ toString (idx + 1) ++ "_" ++ sanitizeCategory category
    category := category
    text := text
    nextID := ""
    followupCandidates := []
    tags := [] }

/-- `easyCategories` (questions.go:114-119). -/
def easyCategories : List String :=
  ["Purpose of Study", "Academic Background", "University Choice",
   "Post-Graduation Plans"]

/-- `allCategories` (questions.go:149-156 and 223-230). -/
def allCategories : List String :=
  ["Purpose of Study", "Academic Background", "University Choice",
   "Financial Capability", "Post-Graduation Plans", "Immigration Intent"]

/-!
`rand.Shuffle` applies a uniformly random in-place permutation.  The
model is parametrised by an arbitrary shuffle oracle
`sh : String → List String → List String` (keyed by the category being
processed); theorems that need it assume `(sh c l).Perm l`, which is
exactly what `rand.Shuffle` guarantees for every random outcome.
`rand.Intn(len(allCategories))` in the medium tier is modelled by the
parameter `extraCat` (`allCategories[extraCat]`, via `getD`).  A
shuffled non-empty list is non-empty, so Go's `available[0]` is
modelled by `headD ""` (the `""` default is unreachable under the
permutation hypothesis).
-/

/-- The easy-tier loop (questions.go:113-145): one question from each
of the 4 easy categories; no duplicate tracking at all. -/
def selectEasyGo (sh : String → List String → List String) (bank : Bank) :
    List String → List Question → List Question
  | [], acc => acc
  | cat :: rest, acc =>
      match bank cat with
      | none => selectEasyGo sh bank rest acc
      | some qs =>
          if qs = [] then selectEasyGo sh bank rest acc
          else
            selectEasyGo sh bank rest
              (acc ++ [mkQuestion acc.length cat ((sh cat qs).headD "")])

/-- The medium-tier main loop (questions.go:160-185): one question from
each of the 6 categories; each selected text is recorded in
`selectedTexts`, but the draw itself is NOT filtered against it. -/
def selectMediumMain (sh : String → List String → List String) (bank : Bank) :
    List String → List Question × List String → List Question × List String
  | [], st => st
  | cat :: rest, (acc, texts) =>
      match bank cat with
      | none => selectMediumMain sh bank rest (acc, texts)
      | some qs =>
          if qs = [] then selectMediumMain sh bank rest (acc, texts)
          else
            let t := (sh cat qs).headD ""
            selectMediumMain sh bank rest
              (acc ++ [mkQuestion acc.length cat t], texts ++ [t])

/-- The medium tier (questions.go:148-219): the main loop, then one
extra question from a random category, filtered against the already
selected texts. -/
def selectMedium (sh : String → List String → List String) (extraCat : Nat)
    (bank : Bank) : List Question :=
  let st := selectMediumMain sh bank allCategories ([], [])
  let acc := st.1
  let texts := st.2
  let randomCategory := allCategories.getD extraCat ""
  match bank randomCategory with
  | none => acc
  | some qs =>
      if qs = [] then acc
      else
        let available := qs.filter (fun q => !(texts.contains q))
        if available = [] then acc
        else
          acc ++ [mkQuestion acc.length randomCategory
                    ((sh randomCategory available).headD "")]

/-- The inner take loop of the hard tier (questions.go:264-274):
append each picked text as a question and record it in
`selectedTexts`. -/
def selectHardPick (cat : String) :
    List String → List Question × List String → List Question × List String
  | [], st => st
  | t :: ts, (acc, texts) =>
      selectHardPick cat ts (acc ++ [mkQuestion acc.length cat t], texts ++ [t])

/-- The hard-tier category loop (questions.go:234-275): filter the
category's questions against the texts selected so far, shuffle, and
take up to 2 (the take loop does not re-check `selectedTexts`). -/
def selectHardGo (sh : String → List String → List String) (bank : Bank) :
    List String → List Question × List String → List Question × List String
  | [], st => st
  | cat :: rest, (acc, texts) =>
      match bank cat with
      | none => selectHardGo sh bank rest (acc, texts)
      | some qs =>
          if qs = [] then selectHardGo sh bank rest (acc, texts)
          else
            let available := qs.filter (fun q => !(texts.contains q))
            if available = [] then selectHardGo sh bank rest (acc, texts)
            else
              let shuffled := sh cat available
              let count := if shuffled.length < 2 then shuffled.length else 2
              selectHardGo sh bank rest
                (selectHardPick cat (shuffled.take count) (acc, texts))

/-- The hard/default tier (questions.go:222-278). -/
def selectHard (sh : String → List String → List String) (bank : Bank) :
    List Question :=
  (selectHardGo sh bank allCategories ([], [])).1

/-- `SelectQuestionsForSession` (questions.go:108-281), parametrised by
the shuffle oracle and the medium-tier extra-category draw. -/
def SelectQuestionsForSession (sh : String → List String → List String)
    (extraCat : Nat) (bank : Bank) (level : String) : List Question :=
  if level = "easy" then selectEasyGo sh bank easyCategories []
  else if level = "medium" then selectMedium sh extraCat bank
  else if level = "hard" ∨ level = "" then selectHard sh bank
  else []

/-!
The defensive JSON-object extraction of `callGPTAPI`
(analyzer.go:366-401), modelled at the byte level on `List Char`.
-/

/-- Whitespace as trimmed by `strings.TrimSpace` (`unicode.IsSpace`),
restricted to the ASCII space characters (the service replies the code
handles are ASCII; non-ASCII Unicode spaces are not modelled). -/
def isSpaceChar (c : Char) : Bool :=
  c = ' ' || c = '\t' || c = '\n' || c = '\r' || c = '\x0b' || c = '\x0c'

/-- `strings.TrimSpace`. -/
def trimSpace (l : List Char) : List Char :=
  ((l.dropWhile isSpaceChar).reverse.dropWhile isSpaceChar).reverse

/-- `strings.TrimPrefix`: drop `pre` if `l` starts with it, else return
`l` unchanged. -/
def trimLeading (pre l : List Char) : List Char :=
  if l.take pre.length = pre then l.drop pre.length else l

/-- `strings.TrimSuffix`: drop `suf` if `l` ends with it, else return
`l` unchanged. -/
def trimTrailing (suf l : List Char) : List Char :=
  if suf.length ≤ l.length ∧ l.drop (l.length - suf.length) = suf then
    l.take (l.length - suf.length)
  else l

/-- analyzer.go:367-373: trim whitespace, strip a leading markdown
fence marker and a trailing one, trim again. -/
def cleanContent (content : List Char) : List Char :=
  let c := trimSpace content
  let c := trimLeading "```json".toList c
  let c := trimLeading "```".toList c
  let c := trimTrailing "```".toList c
  trimSpace c

/-- The decode-side failures of `callGPTAPI` (analyzer.go:377-397),
distinct from transport errors (which return before this code runs). -/
inductive DecodeError where
  | noJSONObject
  | unmatchedBraces
  deriving Repr, DecidableEq

/-- The contribution of one character to the brace-nesting depth. -/
def braceDelta (c : Char) : Int :=
  if c = '\x7b' then 1 else if c = '\x7d' then -1 else 0

/-- Brace balance of a string: opening minus closing braces. -/
def braceBal (l : List Char) : Int := (l.map braceDelta).sum

/-- The scanning loop of analyzer.go:382-394, started at the first
opening brace with `braceCount = 0`: returns the number of characters
up to and including the matching closing brace (`jsonEnd - jsonStart`),
or `none` when the loop ends with unmatched braces. -/
def scanLen : List Char → Int → Option Nat
  | [], _ => none
  | c :: rest, count =>
      let count' :=
        if c = '\x7b' then count + 1
        else if c = '\x7d' then count - 1
        else count
      if c = '\x7d' ∧ count' = 0 then some 1
      else (scanLen rest count').map (· + 1)

/-- The extraction step of `callGPTAPI` (analyzer.go:366-401): clean
the reply, locate the first opening brace (`strings.Index`, modelled by
`dropWhile`: `content[jsonStart:]`), scan for its matching closing
brace, and return `content[jsonStart:jsonEnd]`. -/
def extractJSON (content : List Char) : Except DecodeError (List Char) :=
  let c := cleanContent content
  let s := c.dropWhile (fun ch => ch ≠ '\x7b')
  if s = [] then Except.error DecodeError.noJSONObject
  else
    match scanLen s 0 with
    | none => Except.error DecodeError.unmatchedBraces
    | some n => Except.ok (s.take n)

/-- One JSON object as delimited by braces, as claim C4 presupposes:
starts with `{`, overall balance zero, and every proper non-empty
prefix keeps positive nesting depth (so the final character is the
matching `}` of the first `{`). -/
def BalancedObj (obj : List Char) : Prop :=
  obj.head? = some '\x7b' ∧ braceBal obj = 0 ∧
    ∀ p ∈ obj.inits, p ≠ [] → p ≠ obj → 0 < braceBal p

/-! Concrete inputs used by counterexamples and witnesses. -/

/-- Empty structured feedback (all fields zero-valued, as Go produces
for absent JSON fields). -/
def emptyFeedback : StructuredFeedback :=
  { overall := ""
    byCriterion :=
      { migrationIntent := ""
        financialUnderstanding := ""
        academicCredibility := ""
        specificityResearch := ""
        consistency := ""
        communicationQuality := ""
        redFlags := "" }
    improvements := [] }

/-- A decodable reply in which every criterion is null and the service
claimed classification "Excellent". -/
def allNullResponse : AnalysisResponse :=
  { scores :=
      { migrationIntent := none
        financialUnderstanding := none
        academicCredibility := none
        specificityResearch := none
        consistency := none
        communicationQuality := none
        redFlags := none
        totalScore := 7 }
    classification := "Excellent"
    feedback := emptyFeedback }

/-- An analysis record with all seven criteria present. -/
def mkRecord7 (qid : String) (mi fu ac sr co cq rf : Int) : AnalysisRecord :=
  { id := qid
    sessionId := ""
    question := ""
    answer := ""
    analysis :=
      { scores :=
          { migrationIntent := some mi
            financialUnderstanding := some fu
            academicCredibility := some ac
            specificityResearch := some sr
            consistency := some co
            communicationQuality := some cq
            redFlags := some rf
            totalScore := mi + fu + ac + sr + co + cq + rf }
        classification := ""
        feedback := emptyFeedback } }

/-- The two analyses of claim C8's instance: totals 32 and 29, seven
criteria each (the values of the repository's own summary test). -/
def demoAnalyses : List AnalysisRecord :=
  [mkRecord7 "q1" 5 4 4 4 5 5 5, mkRecord7 "q2" 4 4 4 4 4 4 5]

/-- A single analysis with exactly three criteria present, each scored
4 (total 12 of a 15 maximum: 80%). -/
def record12of15 : AnalysisRecord :=
  { id := "q1"
    sessionId := ""
    question := ""
    answer := ""
    analysis :=
      { scores :=
          { migrationIntent := some 4
            financialUnderstanding := some 4
            academicCredibility := some 4
            specificityResearch := none
            consistency := none
            communicationQuality := none
            redFlags := none
            totalScore := 12 }
        classification := ""
        feedback := emptyFeedback } }

/-- The grade field of a summary result, when it succeeded. -/
def summaryGradeOf (e : Except String SessionSummary) : Option String :=
  e.toOption.map (fun s => s.overallGrade)

/-- The average-score field of a summary result, when it succeeded. -/
def summaryAvgOf (e : Except String SessionSummary) : Option ℚ :=
  e.toOption.map (fun s => s.averageScore)

/-- The identity shuffle: one admissible outcome of `rand.Shuffle`. -/
def idShuffle : String → List String → List String := fun _ l => l

/-- A bank whose "Purpose of Study" category holds the same text twice;
every other category is absent. -/
def dupTextBank : Bank := fun c =>
  if c = "Purpose of Study" then some ["X", "X"] else none

/-- A bank in which every category holds two questions, but
"Purpose of Study" and "Academic Background" hold the same two texts. -/
def sharedTextBank : Bank := fun c =>
  if c = "Purpose of Study" then some ["X", "Y"]
  else if c = "Academic Background" then some ["X", "Y"]
  else if c = "University Choice" then some ["u1", "u2"]
  else if c = "Financial Capability" then some ["f1", "f2"]
  else if c = "Post-Graduation Plans" then some ["p1", "p2"]
  else if c = "Immigration Intent" then some ["i1", "i2"]
  else none

/-- A well-formed bank: two distinct questions per category, no text
shared between categories. -/
def fullBank : Bank := fun c =>
  if c = "Purpose of Study" then some ["s1", "s2"]
  else if c = "Academic Background" then some ["a1", "a2"]
  else if c = "University Choice" then some ["u1", "u2"]
  else if c = "Financial Capability" then some ["f1", "f2"]
  else if c = "Post-Graduation Plans" then some ["p1", "p2"]
  else if c = "Immigration Intent" then some ["i1", "i2"]
  else none

/-- A decoded questions mapping in which every required category is
present but "Purpose of Study" is empty. -/
def emptyPurposeCategories : List (String × List String) :=
  [("Purpose of Study", []),
   ("Academic Background", ["a1"]),
   ("University Choice", ["u1"]),
   ("Financial Capability", ["f1"]),
   ("Post-Graduation Plans", ["p1"]),
   ("Immigration Intent", ["i1"])]

/-! ## Theorems -/

theorem countRelevantCriteria_set_total (s : AnalysisScores) (t : Int) :
    countRelevantCriteria { s with totalScore := t } = countRelevantCriteria s := rfl

theorem calculateTotalScore_set_total (s : AnalysisScores) (t : Int) :
    calculateTotalScore { s with totalScore := t } = calculateTotalScore s := rfl

theorem validateAnalysis_scores (a : AnalysisResponse) :
    (validateAnalysis a).scores
      = { a.scores with totalScore := calculateTotalScore a.scores } := by
  unfold validateAnalysis
  dsimp only
  split_ifs <;> rfl

theorem validateAnalysis_classification (a : AnalysisResponse) :
    (validateAnalysis a).classification
      = getClassificationFromScore (calculateTotalScore a.scores)
          (countRelevantCriteria a.scores) := by
  unfold validateAnalysis
  dsimp only
  split_ifs with h
  · rfl
  · simpa using not_not.mp h

/-- Claim C1: for every successfully decoded analysis returned by the
response validator, the stored `total_score` is the sum of the non-null
criterion scores of the returned record, and the value is independent
of whatever `total_score` the external reply contained. -/
theorem claim_c1_totalScore_recomputed (a : AnalysisResponse) :
    (validateAnalysis a).scores.totalScore
        = calculateTotalScore (validateAnalysis a).scores
  ∧ ∀ t : Int,
      (validateAnalysis { a with scores := { a.scores with totalScore := t } }).scores
        = (validateAnalysis a).scores := by
  constructor
  · rw [validateAnalysis_scores]
    rfl
  · intro t
    rw [validateAnalysis_scores, validateAnalysis_scores]
    rfl

theorem claimTier_cmp85 (t : Int) (n : Nat) :
    ((t : ℚ) ≥ 85 / 100 * ((n : ℚ) * 5)) ↔ 100 * t ≥ 85 * ((n : Int) * 5) := by
  rw [ge_iff_le, ge_iff_le, div_mul_eq_mul_div, div_le_iff₀ (by norm_num : (0:ℚ) < 100)]
  constructor
  · intro h
    have h2 : ((85 * ((n : Int) * 5) : Int) : ℚ) ≤ ((100 * t : Int) : ℚ) := by
      push_cast
      push_cast at h
      linarith
    exact_mod_cast h2
  · intro h
    have h2 : ((85 * ((n : Int) * 5) : Int) : ℚ) ≤ ((100 * t : Int) : ℚ) := by
      exact_mod_cast h
    push_cast at h2
    linarith

theorem claimTier_cmp70 (t : Int) (n : Nat) :
    ((t : ℚ) ≥ 70 / 100 * ((n : ℚ) * 5)) ↔ 100 * t ≥ 70 * ((n : Int) * 5) := by
  rw [ge_iff_le, ge_iff_le, div_mul_eq_mul_div, div_le_iff₀ (by norm_num : (0:ℚ) < 100)]
  constructor
  · intro h
    have h2 : ((70 * ((n : Int) * 5) : Int) : ℚ) ≤ ((100 * t : Int) : ℚ) := by
      push_cast
      push_cast at h
      linarith
    exact_mod_cast h2
  · intro h
    have h2 : ((70 * ((n : Int) * 5) : Int) : ℚ) ≤ ((100 * t : Int) : ℚ) := by
      exact_mod_cast h
    push_cast at h2
    linarith

theorem claimTier_cmp50 (t : Int) (n : Nat) :
    ((t : ℚ) ≥ 50 / 100 * ((n : ℚ) * 5)) ↔ 100 * t ≥ 50 * ((n : Int) * 5) := by
  rw [ge_iff_le, ge_iff_le, div_mul_eq_mul_div, div_le_iff₀ (by norm_num : (0:ℚ) < 100)]
  constructor
  · intro h
    have h2 : ((50 * ((n : Int) * 5) : Int) : ℚ) ≤ ((100 * t : Int) : ℚ) := by
      push_cast
      push_cast at h
      linarith
    exact_mod_cast h2
  · intro h
    have h2 : ((50 * ((n : Int) * 5) : Int) : ℚ) ≤ ((100 * t : Int) : ℚ) := by
      exact_mod_cast h
    push_cast at h2
    linarith

/-- The source classification function agrees with the claim-worded
table except for the zero-criteria guard. -/
theorem getClassification_eq_claimTier (t : Int) (n : Nat) :
    getClassificationFromScore t n = if n = 0 then "Weak" else claimTier t n := by
  unfold getClassificationFromScore claimTier
  by_cases h0 : n = 0
  · simp [h0]
  · simp only [h0, if_false]
    by_cases h3 : n = 3
    · simp [h3]
    · by_cases h4 : n = 4
      · simp [h4]
      · by_cases h5 : n = 5
        · simp [h5]
        · simp only [h3, h4, h5, if_false]
          simp only [claimTier_cmp85, claimTier_cmp70, claimTier_cmp50]

/-- Claim C2 fails at the reachable zero-criteria edge: a decoded reply
with every criterion null (recomputed total 0, criterion count 0) is
stored as "Weak" by the code, while the claim's threshold table
("otherwise Excellent >= 85% of max, …, else Weak") yields "Excellent"
because 0 >= 85% of 0. -/
theorem claim_c2_counterexample :
    (validateAnalysis allNullResponse).classification = "Weak"
  ∧ claimTier (calculateTotalScore allNullResponse.scores)
      (countRelevantCriteria allNullResponse.scores) = "Excellent"
  ∧ (validateAnalysis allNullResponse).classification
      ≠ claimTier (calculateTotalScore allNullResponse.scores)
          (countRelevantCriteria allNullResponse.scores) := by
  have h1 : (validateAnalysis allNullResponse).classification = "Weak" := by
    rw [validateAnalysis_classification]
    rfl
  have h2 : claimTier (calculateTotalScore allNullResponse.scores)
      (countRelevantCriteria allNullResponse.scores) = "Excellent" := by
    show claimTier 0 0 = "Excellent"
    unfold claimTier
    norm_num
  exact ⟨h1, h2, by rw [h1, h2]; decide⟩

/-- Claim C2 (amended): the stored classification is the tier computed
from the recomputed total score and the count of non-null criteria per
the threshold table, where a result with zero non-null criteria is
classified "Weak" (rather than the table's degenerate "Excellent" at
0 >= 85% of 0); the stored classification is independent of the
classification and total claimed by the external reply, and a
disagreement is corrected without error. -/
theorem claim_c2_classification_recomputed (a : AnalysisResponse) :
    (validateAnalysis a).classification
      = (if countRelevantCriteria a.scores = 0 then "Weak"
         else claimTier (calculateTotalScore a.scores) (countRelevantCriteria a.scores))
  ∧ ∀ (c : String) (t : Int),
      (validateAnalysis
        { a with classification := c
                 scores := { a.scores with totalScore := t } }).classification
      = (validateAnalysis a).classification := by
  constructor
  · rw [validateAnalysis_classification, getClassification_eq_claimTier]
  · intro c t
    rw [validateAnalysis_classification, validateAnalysis_classification]
    rfl

/-- The Go clamping (low bound first, then high bound) followed by the
interpolation, as a closed formula. -/
theorem scoreToPercentage_formula (s n : Int) (hn : 1 ≤ n) :
    ScoreToPercentage s n
      = ((max (n * 1) (min s (n * 5)) - n * 1 : Int) : ℚ)
          * (100 / ((n * 5 - n * 1 : Int) : ℚ)) := by
  unfold ScoreToPercentage
  have h0 : ¬ n = 0 := by omega
  simp only [h0, if_false]
  split_ifs with hlt hgt hr0 <;> try omega
  · congr 2
    omega
  · congr 2
    omega
  · congr 2
    omega

/-- Claim C6: the score normaliser maps the theoretical minimum to 0
and maximum to 100, is monotone in the score, clamps out-of-range
scores, and returns 0 at zero criteria. -/
theorem claim_c6_score_to_percentage (n : Int) (hn : 1 ≤ n) :
    ScoreToPercentage (n * 1) n = 0
  ∧ ScoreToPercentage (n * 5) n = 100
  ∧ (∀ s1 s2 : Int, s1 ≤ s2 → ScoreToPercentage s1 n ≤ ScoreToPercentage s2 n)
  ∧ (∀ s : Int, ScoreToPercentage s n = ScoreToPercentage (max (n * 1) (min s (n * 5))) n)
  ∧ (∀ s : Int, ScoreToPercentage s 0 = 0) := by
  have hrange : (0 : Int) < n * 5 - n * 1 := by omega
  have hrq : (0 : ℚ) < ((n * 5 - n * 1 : Int) : ℚ) := by exact_mod_cast hrange
  refine ⟨?_, ?_, ?_, ?_, ?_⟩
  · rw [scoreToPercentage_formula _ _ hn]
    rw [show max (n * 1) (min (n * 1) (n * 5)) = n * 1 by omega]
    simp
  · rw [scoreToPercentage_formula _ _ hn]
    rw [show max (n * 1) (min (n * 5) (n * 5)) = n * 5 by omega]
    rw [mul_comm]
    rw [div_mul_cancel₀ _ (ne_of_gt hrq)]
  · intro s1 s2 h
    rw [scoreToPercentage_formula _ _ hn, scoreToPercentage_formula _ _ hn]
    apply mul_le_mul_of_nonneg_right
    · exact_mod_cast (by omega :
        (max (n * 1) (min s1 (n * 5)) - n * 1 : Int) ≤ max (n * 1) (min s2 (n * 5)) - n * 1)
    · positivity
  · intro s
    rw [scoreToPercentage_formula _ _ hn, scoreToPercentage_formula _ _ hn]
    congr 2
    omega
  · intro s
    simp [ScoreToPercentage]

/-- Witness for C6 at three criteria. -/
theorem claim_c6_witness :
    (1 : Int) ≤ 3
  ∧ (ScoreToPercentage (3 * 1) 3 = 0
  ∧ ScoreToPercentage (3 * 5) 3 = 100
  ∧ (∀ s1 s2 : Int, s1 ≤ s2 → ScoreToPercentage s1 3 ≤ ScoreToPercentage s2 3)
  ∧ (∀ s : Int, ScoreToPercentage s 3 = ScoreToPercentage (max (3 * 1) (min s (3 * 5))) 3)
  ∧ (∀ s : Int, ScoreToPercentage s 0 = 0)) :=
  ⟨by norm_num, claim_c6_score_to_percentage 3 (by norm_num)⟩

/-- Claim C7: summarising an empty list of analyses yields an explicit
error and never a summary value. -/
theorem claim_c7_empty_summary_error :
    GenerateSessionSummary [] = Except.error "no analyses provided"
  ∧ ∀ s : SessionSummary, GenerateSessionSummary [] ≠ Except.ok s := by
  constructor
  · rfl
  · intro s h
    rw [show GenerateSessionSummary [] = Except.error "no analyses provided" from rfl] at h
    exact Except.noConfusion h

/-- Claim C10: a tier token outside easy/medium/hard/empty selects the
empty sequence, whatever the bank. -/
theorem claim_c10_unknown_level_empty (sh : String → List String → List String)
    (extraCat : Nat) (bank : Bank) (level : String)
    (h1 : level ≠ "easy") (h2 : level ≠ "medium") (h3 : level ≠ "hard")
    (h4 : level ≠ "") :
    SelectQuestionsForSession sh extraCat bank level = [] := by
  unfold SelectQuestionsForSession
  simp [h1, h2, h3, h4]

/-- Witness for C10 at the tier token "EASY" over a fully stocked
bank. -/
theorem claim_c10_witness :
    ("EASY" ≠ "easy" ∧ "EASY" ≠ "medium" ∧ "EASY" ≠ "hard" ∧ "EASY" ≠ "")
  ∧ SelectQuestionsForSession idShuffle 0 fullBank "EASY" = [] :=
  ⟨⟨by decide, by decide, by decide, by decide⟩,
   claim_c10_unknown_level_empty idShuffle 0 fullBank "EASY"
     (by decide) (by decide) (by decide) (by decide)⟩

theorem generateSessionSummary_ok (analyses : List AnalysisRecord)
    (h : analyses ≠ []) :
    GenerateSessionSummary analyses = Except.ok
      { totalQuestions := analyses.length
        averageScore := meanTotal analyses
        overallGrade :=
          getGradeFromScore (truncToInt (meanTotal analyses)) (avgCriteriaCount analyses)
        strongAreas := extractCommonStrengths analyses
        weakAreas := extractCommonWeaknesses analyses
        commonRedFlags := extractCommonRedFlags analyses
        recommendation := generateRecommendation (meanTotal analyses) analyses } := by
  unfold GenerateSessionSummary
  rw [if_neg (by simpa [List.length_eq_zero] using h)]

theorem avgCriteriaCount_ne_zero (analyses : List AnalysisRecord) :
    avgCriteriaCount analyses ≠ 0 := by
  unfold avgCriteriaCount
  dsimp only
  split_ifs with h
  · exact one_ne_zero
  · exact h

theorem getGradeFromScore_iff (x : Int) (n : Nat) (hn : n ≠ 0) :
    (getGradeFromScore x n = "A" ↔ (n : Int) * 5 * 85 / 100 ≤ x)
  ∧ (getGradeFromScore x n = "B"
      ↔ (n : Int) * 5 * 70 / 100 ≤ x ∧ x < (n : Int) * 5 * 85 / 100)
  ∧ (getGradeFromScore x n = "C"
      ↔ (n : Int) * 5 * 50 / 100 ≤ x ∧ x < (n : Int) * 5 * 70 / 100)
  ∧ (getGradeFromScore x n = "D" ↔ x < (n : Int) * 5 * 50 / 100) := by
  simp only [getGradeFromScore, hn, if_false]
  split_ifs with h1 h2 h3 <;>
    refine ⟨⟨fun hh => ?_, fun hh => ?_⟩, ⟨fun hh => ?_, fun hh => ?_⟩,
      ⟨fun hh => ?_, fun hh => ?_⟩, ⟨fun hh => ?_, fun hh => ?_⟩⟩ <;>
    first
      | rfl
      | exact absurd hh (by decide)
      | omega

/-- Claim C8's exact-percentage reading fails: the code truncates its
thresholds to integers, so a session of one analysis with three
criteria and stored total 12 — a mean of 12 out of the average maximum
15, i.e. 80% < 85% — still receives overall grade "A", because
`int(float64(15) * 0.85) = 12`. -/
theorem claim_c8_counterexample :
    summaryGradeOf (GenerateSessionSummary [record12of15]) = some "A"
  ∧ summaryAvgOf (GenerateSessionSummary [record12of15]) = some 12
  ∧ ¬ ((12 : ℚ) / 15 ≥ 85 / 100) := by
  have hne : ([record12of15] : List AnalysisRecord) ≠ [] := by simp
  have hok := generateSessionSummary_ok [record12of15] hne
  have hmean : meanTotal [record12of15] = 12 := by
    norm_num [meanTotal, sumTotals, record12of15]
  have htr : truncToInt (meanTotal [record12of15]) = 12 := by
    rw [hmean]
    unfold truncToInt
    rw [if_pos (by norm_num)]
    norm_num
  have hav : avgCriteriaCount [record12of15] = 3 := by decide
  refine ⟨?_, ?_, by norm_num⟩
  · rw [hok]
    show some (getGradeFromScore (truncToInt (meanTotal [record12of15]))
        (avgCriteriaCount [record12of15])) = some "A"
    rw [htr, hav]
    decide
  · rw [hok]
    show some (meanTotal [record12of15]) = some 12
    rw [hmean]

/-- Claim C8 (amended): the overall grade is determined by the mean
total score against integer-truncated percentage thresholds of the
average maximum `maxScore = 5 * avgCriteriaCount`: "A" iff
`int(mean) >= int(maxScore*0.85)`, "B" iff `int(mean) >=
int(maxScore*0.70)` (below the "A" cutoff), "C" iff `int(mean) >=
int(maxScore*0.50)` (below the "B" cutoff), "D" otherwise; the claim's
concrete instance stands: two analyses with totals 32 and 29 over 7
criteria give AverageScore 30.5 and OverallGrade "A". -/
theorem claim_c8_grade_thresholds (analyses : List AnalysisRecord)
    (h : analyses ≠ []) :
    summaryAvgOf (GenerateSessionSummary analyses) = some (meanTotal analyses)
  ∧ (summaryGradeOf (GenerateSessionSummary analyses) = some "A"
      ↔ (avgCriteriaCount analyses : Int) * 5 * 85 / 100
          ≤ truncToInt (meanTotal analyses))
  ∧ (summaryGradeOf (GenerateSessionSummary analyses) = some "B"
      ↔ (avgCriteriaCount analyses : Int) * 5 * 70 / 100
          ≤ truncToInt (meanTotal analyses)
        ∧ truncToInt (meanTotal analyses)
            < (avgCriteriaCount analyses : Int) * 5 * 85 / 100)
  ∧ (summaryGradeOf (GenerateSessionSummary analyses) = some "C"
      ↔ (avgCriteriaCount analyses : Int) * 5 * 50 / 100
          ≤ truncToInt (meanTotal analyses)
        ∧ truncToInt (meanTotal analyses)
            < (avgCriteriaCount analyses : Int) * 5 * 70 / 100)
  ∧ (summaryGradeOf (GenerateSessionSummary analyses) = some "D"
      ↔ truncToInt (meanTotal analyses)
          < (avgCriteriaCount analyses : Int) * 5 * 50 / 100) := by
  have hok := generateSessionSummary_ok analyses h
  have hg := getGradeFromScore_iff (truncToInt (meanTotal analyses))
    (avgCriteriaCount analyses) (avgCriteriaCount_ne_zero analyses)
  have hgr : summaryGradeOf (GenerateSessionSummary analyses)
      = some (getGradeFromScore (truncToInt (meanTotal analyses))
          (avgCriteriaCount analyses)) := by
    rw [hok]
    rfl
  refine ⟨?_, ?_, ?_, ?_, ?_⟩
  · rw [hok]
    rfl
  · rw [hgr, Option.some_inj]
    exact hg.1
  · rw [hgr, Option.some_inj]
    exact hg.2.1
  · rw [hgr, Option.some_inj]
    exact hg.2.2.1
  · rw [hgr, Option.some_inj]
    exact hg.2.2.2

/-- Witness for C8 at the claim's own instance (totals 32 and 29 over
7 criteria: mean 61/2 = 30.5, grade "A"). -/
theorem claim_c8_witness :
    summaryAvgOf (GenerateSessionSummary demoAnalyses) = some ((61 : ℚ) / 2)
  ∧ summaryGradeOf (GenerateSessionSummary demoAnalyses) = some "A" := by
  have hth := claim_c8_grade_thresholds demoAnalyses (by simp [demoAnalyses])
  have hmean : meanTotal demoAnalyses = 61 / 2 := by
    norm_num [meanTotal, sumTotals, demoAnalyses, mkRecord7]
  have htr : truncToInt (meanTotal demoAnalyses) = 30 := by
    rw [hmean]
    unfold truncToInt
    rw [if_pos (by norm_num)]
    rw [Int.floor_eq_iff]
    norm_num
  have hav : avgCriteriaCount demoAnalyses = 7 := by decide
  constructor
  · rw [hth.1, hmean]
  · apply hth.2.1.mpr
    rw [htr, hav]
    decide

/-- Claim C9 fails on the emptiness half: a decoded mapping in which
every required category is present but "Purpose of Study" maps to an
empty list passes validation — `LoadQuestions` only checks key
presence (`!ok`), never non-emptiness. -/
theorem claim_c9_counterexample :
    LoadQuestions emptyPurposeCategories = Except.ok emptyPurposeCategories
  ∧ emptyPurposeCategories.lookup "Purpose of Study" = some []
  ∧ "Purpose of Study" ∈ requiredCategories := by
  refine ⟨by rfl, by decide, by decide⟩

/-- Claim C9 (amended): `LoadQuestions` succeeds exactly when every
category required by the selection rules is present as a key of the
decoded mapping; a present-but-empty category is accepted, and any
absent required category yields an error (so no bank value is
returned). -/
theorem claim_c9_load_validation (categories : List (String × List String)) :
    (LoadQuestions categories = Except.ok categories
      ↔ ∀ c ∈ requiredCategories, (categories.lookup c).isSome = true)
  ∧ ((∃ c ∈ requiredCategories, categories.lookup c = none) →
      ∀ bank, LoadQuestions categories ≠ Except.ok bank) := by
  constructor
  · unfold LoadQuestions
    cases hfind : requiredCategories.find? (fun c => (categories.lookup c).isNone) with
    | none =>
        simp only [true_iff]
        intro c hc
        have := List.find?_eq_none.mp hfind c hc
        simpa [Option.isNone_iff_eq_none, Option.isSome_iff_ne_none] using this
    | some c =>
        constructor
        · intro h
          exact Except.noConfusion h
        · intro h
          have hmem := List.mem_of_find?_eq_some hfind
          have hp := List.find?_some hfind
          have := h c hmem
          rw [Option.isNone_iff_eq_none] at hp
          rw [hp] at this
          exact Bool.noConfusion this
  · rintro ⟨c, hmem, hnone⟩ bank h
    unfold LoadQuestions at h
    cases hfind : requiredCategories.find? (fun c => (categories.lookup c).isNone) with
    | none =>
        have := List.find?_eq_none.mp hfind c hmem
        rw [hnone] at this
        exact this rfl
    | some c' =>
        rw [hfind] at h
        exact Except.noConfusion h

/-- Witness for C9: a mapping with every required category present
(one of them empty) loads successfully. -/
theorem claim_c9_witness :
    LoadQuestions emptyPurposeCategories = Except.ok emptyPurposeCategories :=
  (claim_c9_load_validation emptyPurposeCategories).1.mpr (by decide)

theorem braceStep (c : Char) (count : Int) :
    (if c = '\x7b' then count + 1 else if c = '\x7d' then count - 1 else count)
      = count + braceDelta c := by
  unfold braceDelta
  split_ifs <;> ring

theorem braceBal_cons (c : Char) (l : List Char) :
    braceBal (c :: l) = braceDelta c + braceBal l := by
  simp [braceBal]

theorem mem_inits_cons (c : Char) (p l : List Char) (h : p ∈ l.inits) :
    (c :: p) ∈ (c :: l).inits := by
  rw [List.mem_inits] at h ⊢
  obtain ⟨t, rfl⟩ := h
  exact ⟨t, rfl⟩

theorem scanLen_append (l rest : List Char) (count : Int)
    (hbal : count + braceBal l = 0)
    (hpos : ∀ p ∈ l.inits, p ≠ l → 0 < count + braceBal p)
    (hne : l ≠ []) :
    scanLen (l ++ rest) count = some l.length := by
  induction l generalizing count with
  | nil => exact absurd rfl hne
  | cons c l' ih =>
    have hc0 : 0 < count := by
      have h := hpos [] (by rw [List.mem_inits]; exact ⟨c :: l', rfl⟩) (by simp)
      simpa [braceBal] using h
    by_cases hl' : l' = []
    · subst hl'
      have hd : braceDelta c = -count := by
        have h := hbal
        simp [braceBal] at h
        omega
      have hcb : c = '\x7d' := by
        by_contra hne2
        unfold braceDelta at hd
        split_ifs at hd <;> omega
      subst hcb
      have hcount1 : count = 1 := by
        unfold braceDelta at hd
        simp at hd
        omega
      subst hcount1
      simp [scanLen]
    · have hpfx : ([c] : List Char) ∈ (c :: l').inits := by
        rw [List.mem_inits]
        exact ⟨l', rfl⟩
      have hcpos : 0 < count + braceDelta c := by
        have h := hpos [c] hpfx (by simp [hl'])
        simpa [braceBal] using h
      have hstop :
          ¬ (c = '\x7d'
              ∧ (if c = '\x7b' then count + 1
                 else if c = '\x7d' then count - 1 else count) = 0) := by
        rintro ⟨hc, hz⟩
        rw [braceStep] at hz
        omega
      have hrec : scanLen (l' ++ rest) (count + braceDelta c) = some l'.length := by
        apply ih
        · rw [braceBal_cons] at hbal
          omega
        · intro p hp hpne
          have h := hpos (c :: p) (mem_inits_cons c p l' hp) (by simp [hpne])
          rw [braceBal_cons] at h
          omega
        · exact hl'
      show scanLen (c :: (l' ++ rest)) count = some (l'.length + 1)
      unfold scanLen
      rw [if_neg hstop, braceStep, hrec]
      rfl

theorem scanLen_none (l : List Char) (count : Int)
    (hpos : ∀ p ∈ l.inits, p ≠ [] → 0 < count + braceBal p) :
    scanLen l count = none := by
  induction l generalizing count with
  | nil => rfl
  | cons c l' ih =>
    have hpfx : ([c] : List Char) ∈ (c :: l').inits := by
      rw [List.mem_inits]
      exact ⟨l', rfl⟩
    have hcpos : 0 < count + braceDelta c := by
      have h := hpos [c] hpfx (by simp)
      simpa [braceBal] using h
    have hstop :
        ¬ (c = '\x7d'
            ∧ (if c = '\x7b' then count + 1
               else if c = '\x7d' then count - 1 else count) = 0) := by
      rintro ⟨hc, hz⟩
      rw [braceStep] at hz
      omega
    have hrec : scanLen l' (count + braceDelta c) = none := by
      apply ih
      intro p hp hpne
      have h := hpos (c :: p) (mem_inits_cons c p l' hp) (by simp)
      rw [braceBal_cons] at h
      omega
    unfold scanLen
    rw [if_neg hstop, braceStep, hrec]
    rfl

theorem dropWhile_brace_append (l₁ l₂ : List Char)
    (h₁ : ∀ c ∈ l₁, c ≠ '\x7b') (h₂ : l₂.head? = some '\x7b') :
    (l₁ ++ l₂).dropWhile (fun ch => ch ≠ '\x7b') = l₂ := by
  induction l₁ with
  | nil =>
      cases l₂ with
      | nil => simp at h₂
      | cons c t =>
          have hc : c = '\x7b' := by simpa using h₂
          subst hc
          simp [List.dropWhile_cons]
  | cons c t ih =>
      have hc : c ≠ '\x7b' := h₁ c (by simp)
      simp only [List.cons_append, List.dropWhile_cons]
      rw [if_pos (by simpa using hc)]
      exact ih (fun x hx => h₁ x (by simp [hx]))

theorem dropWhile_brace_nil (l : List Char) (h : '\x7b' ∉ l) :
    l.dropWhile (fun ch => ch ≠ '\x7b') = [] := by
  induction l with
  | nil => rfl
  | cons c t ih =>
      have hc : c ≠ '\x7b' := fun hh => h (by simp [hh])
      simp only [List.dropWhile_cons]
      rw [if_pos (by simpa using hc)]
      exact ih (fun hh => h (by simp [hh]))

theorem trimSpace_sublist (l : List Char) : List.Sublist (trimSpace l) l := by
  unfold trimSpace
  have h1 : List.Sublist (l.dropWhile isSpaceChar) l :=
    (List.dropWhile_suffix isSpaceChar).sublist
  have h2 : List.Sublist ((l.dropWhile isSpaceChar).reverse.dropWhile isSpaceChar)
      (l.dropWhile isSpaceChar).reverse :=
    (List.dropWhile_suffix isSpaceChar).sublist
  have h3 := h2.reverse
  rw [List.reverse_reverse] at h3
  exact h3.trans h1

theorem trimLeading_sublist (pre l : List Char) :
    List.Sublist (trimLeading pre l) l := by
  unfold trimLeading
  split_ifs
  · exact List.drop_sublist _ _
  · exact List.Sublist.refl l

theorem trimTrailing_sublist (suf l : List Char) :
    List.Sublist (trimTrailing suf l) l := by
  unfold trimTrailing
  split_ifs
  · exact List.take_sublist _ _
  · exact List.Sublist.refl l

theorem cleanContent_sublist (l : List Char) :
    List.Sublist (cleanContent l) l := by
  unfold cleanContent
  exact ((((trimSpace_sublist _).trans (trimTrailing_sublist _ _)).trans
    (trimLeading_sublist _ _)).trans (trimLeading_sublist _ _)).trans
    (trimSpace_sublist l)

/-- Claim C4: the validator's extraction step (1) isolates the one
balanced-brace JSON object of a reply, even when it is surrounded by
prose and/or markdown fences, handing exactly that object to the JSON
decoder; (2) a reply with no opening brace yields the
`noJSONObject` decode error; (3) a reply whose first opening brace is
never closed yields the `unmatchedBraces` decode error — both decode
errors, not transport errors, and no result is produced. -/
theorem claim_c4_extraction :
    (∀ reply p₁ obj p₂ : List Char,
        cleanContent reply = p₁ ++ obj ++ p₂ →
        (∀ c ∈ p₁, c ≠ '\x7b') →
        BalancedObj obj →
        extractJSON reply = Except.ok obj)
  ∧ (∀ reply : List Char, '\x7b' ∉ reply →
        extractJSON reply = Except.error DecodeError.noJSONObject)
  ∧ (∀ reply : List Char,
        (cleanContent reply).dropWhile (fun ch => ch ≠ '\x7b') ≠ [] →
        (∀ p ∈ ((cleanContent reply).dropWhile (fun ch => ch ≠ '\x7b')).inits,
            p ≠ [] → 0 < braceBal p) →
        extractJSON reply = Except.error DecodeError.unmatchedBraces) := by
  refine ⟨?_, ?_, ?_⟩
  · intro reply p₁ obj p₂ hclean hp₁ hobj
    obtain ⟨hhead, hbal, hpos⟩ := hobj
    obtain ⟨o, body, rfl⟩ : ∃ o body, obj = o :: body := by
      cases obj with
      | nil => simp at hhead
      | cons o body => exact ⟨o, body, rfl⟩
    have ho : o = '\x7b' := by simpa using hhead
    subst ho
    have hscan : scanLen (('\x7b' :: body) ++ p₂) 0 = some ('\x7b' :: body).length := by
      by_cases hb : body = []
      · subst hb
        rw [braceBal_cons] at hbal
        unfold braceDelta at hbal
        simp [braceBal] at hbal
      · show scanLen ('\x7b' :: (body ++ p₂)) 0 = some (body.length + 1)
        unfold scanLen
        rw [if_neg (by simp), braceStep]
        have hrec : scanLen (body ++ p₂) (0 + braceDelta '\x7b') = some body.length := by
          apply scanLen_append
          · rw [braceBal_cons] at hbal
            omega
          · intro p hp hpne
            have h := hpos ('\x7b' :: p) (mem_inits_cons _ p body hp)
              (by simp) (by simp [hpne])
            rw [braceBal_cons] at h
            unfold braceDelta at h ⊢
            simp at h ⊢
            omega
          · exact hb
        rw [hrec]
        rfl
    unfold extractJSON
    dsimp only
    rw [hclean, List.append_assoc]
    rw [dropWhile_brace_append p₁ _ hp₁ (by simp)]
    rw [if_neg (by simp)]
    rw [hscan]
    dsimp only
    exact congrArg Except.ok (List.take_left _ _)
  · intro reply h
    have hcc : '\x7b' ∉ cleanContent reply :=
      fun hh => h ((cleanContent_sublist reply).subset hh)
    unfold extractJSON
    dsimp only
    rw [dropWhile_brace_nil _ hcc]
    rfl
  · intro reply hne hpos
    have hsc : scanLen ((cleanContent reply).dropWhile (fun ch => ch ≠ '\x7b')) 0
        = none :=
      scanLen_none _ 0 (fun p hp hpne => by have := hpos p hp hpne; omega)
    unfold extractJSON
    dsimp only
    rw [if_neg hne, hsc]

/-- Witness for C4: a reply with leading prose, an inline fenced block
and trailing prose decodes to exactly its JSON object; a brace-free
reply and an unmatched-brace reply produce the two decode errors. -/
theorem claim_c4_witness :
    extractJSON
        ("Sure! Here is the evaluation:\n```json\n\x7b\"scores\": \x7b\"total_score\": 7\x7d\x7d\n```\nDone.").toList
      = Except.ok ("\x7b\"scores\": \x7b\"total_score\": 7\x7d\x7d").toList
  ∧ extractJSON ("no json here").toList = Except.error DecodeError.noJSONObject
  ∧ extractJSON ("prose \x7b\"a\": \x7b1\x7d oops").toList
      = Except.error DecodeError.unmatchedBraces := by
  refine ⟨?_, ?_, ?_⟩
  · exact claim_c4_extraction.1 _
      ("Sure! Here is the evaluation:\n```json\n").toList
      ("\x7b\"scores\": \x7b\"total_score\": 7\x7d\x7d").toList
      ("\n```\nDone.").toList
      (by decide) (by decide) ⟨by decide, by decide, by decide⟩
  · exact claim_c4_extraction.2.1 _ (by decide)
  · exact claim_c4_extraction.2.2 _ (by decide) (by decide)

theorem headD_mem (l : List String) (h : l ≠ []) : l.headD "" ∈ l := by
  cases l with
  | nil => exact absurd rfl h
  | cons a t => simp

theorem shuffled_headD_mem (sh : String → List String → List String)
    (hsh : ∀ c l, (sh c l).Perm l) (cat : String) (qs : List String)
    (hqs : qs ≠ []) : (sh cat qs).headD "" ∈ qs := by
  have hperm := hsh cat qs
  have hne : sh cat qs ≠ [] := by
    intro hp
    rw [hp] at hperm
    exact hqs (List.Perm.eq_nil hperm.symm)
  exact hperm.subset (headD_mem _ hne)

theorem mkQuestion_text (idx : Nat) (category text : String) :
    (mkQuestion idx category text).text = text := rfl

theorem mkQuestion_category (idx : Nat) (category text : String) :
    (mkQuestion idx category text).category = category := rfl

theorem selectEasyGo_nodup (sh : String → List String → List String) (bank : Bank)
    (hsh : ∀ c l, (sh c l).Perm l) :
    ∀ (cats : List String) (acc : List Question),
      cats.Pairwise (fun c c' => ∀ t ∈ bankList bank c, t ∉ bankList bank c') →
      (∀ q ∈ acc, ∀ c ∈ cats, q.text ∉ bankList bank c) →
      (acc.map Question.text).Nodup →
      ((selectEasyGo sh bank cats acc).map Question.text).Nodup := by
  intro cats
  induction cats with
  | nil =>
      intro acc _ _ hnd
      simpa [selectEasyGo] using hnd
  | cons cat rest ih =>
      intro acc hpw hfresh hnd
      rw [List.pairwise_cons] at hpw
      obtain ⟨hdisj, hpw'⟩ := hpw
      unfold selectEasyGo
      cases hb : bank cat with
      | none =>
          exact ih acc hpw' (fun q hq c hc => hfresh q hq c (by simp [hc])) hnd
      | some qs =>
          dsimp only
          by_cases hqs : qs = []
          · rw [if_pos hqs]
            exact ih acc hpw' (fun q hq c hc => hfresh q hq c (by simp [hc])) hnd
          · rw [if_neg hqs]
            have htmem : (sh cat qs).headD "" ∈ bankList bank cat := by
              rw [bankList, hb]
              exact shuffled_headD_mem sh hsh cat qs hqs
            apply ih
            · exact hpw'
            · intro q hq c hc
              rcases List.mem_append.mp hq with h | h
              · exact hfresh q h c (by simp [hc])
              · have hq' : q = mkQuestion acc.length cat ((sh cat qs).headD "") := by
                  simpa using h
                subst hq'
                rw [mkQuestion_text]
                exact hdisj c hc _ htmem
            · rw [List.map_append]
              apply List.Nodup.append hnd (by simp)
              intro t ht ht'
              have hx : t = (sh cat qs).headD "" := by simpa using ht'
              subst hx
              obtain ⟨q, hq, hqt⟩ := List.mem_map.mp ht
              exact hfresh q hq cat (by simp) (hqt ▸ htmem)

theorem selectMediumMain_spec (sh : String → List String → List String) (bank : Bank)
    (hsh : ∀ c l, (sh c l).Perm l) :
    ∀ (cats : List String) (acc : List Question) (texts : List String),
      cats.Pairwise (fun c c' => ∀ t ∈ bankList bank c, t ∉ bankList bank c') →
      (∀ q ∈ acc, ∀ c ∈ cats, q.text ∉ bankList bank c) →
      (acc.map Question.text).Nodup →
      (∀ q ∈ acc, q.text ∈ texts) →
      ((selectMediumMain sh bank cats (acc, texts)).1.map Question.text).Nodup
      ∧ (∀ q ∈ (selectMediumMain sh bank cats (acc, texts)).1,
          q.text ∈ (selectMediumMain sh bank cats (acc, texts)).2) := by
  intro cats
  induction cats with
  | nil =>
      intro acc texts _ _ hnd hsub
      exact ⟨by simpa [selectMediumMain] using hnd, by simpa [selectMediumMain] using hsub⟩
  | cons cat rest ih =>
      intro acc texts hpw hfresh hnd hsub
      rw [List.pairwise_cons] at hpw
      obtain ⟨hdisj, hpw'⟩ := hpw
      unfold selectMediumMain
      cases hb : bank cat with
      | none =>
          exact ih acc texts hpw' (fun q hq c hc => hfresh q hq c (by simp [hc])) hnd hsub
      | some qs =>
          dsimp only
          by_cases hqs : qs = []
          · rw [if_pos hqs]
            exact ih acc texts hpw' (fun q hq c hc => hfresh q hq c (by simp [hc])) hnd hsub
          · rw [if_neg hqs]
            have htmem : (sh cat qs).headD "" ∈ bankList bank cat := by
              rw [bankList, hb]
              exact shuffled_headD_mem sh hsh cat qs hqs
            apply ih
            · exact hpw'
            · intro q hq c hc
              rcases List.mem_append.mp hq with h | h
              · exact hfresh q h c (by simp [hc])
              · have hq' : q = mkQuestion acc.length cat ((sh cat qs).headD "") := by
                  simpa using h
                subst hq'
                rw [mkQuestion_text]
                exact hdisj c hc _ htmem
            · rw [List.map_append]
              apply List.Nodup.append hnd (by simp)
              intro t ht ht'
              have hx : t = (sh cat qs).headD "" := by simpa using ht'
              subst hx
              obtain ⟨q, hq, hqt⟩ := List.mem_map.mp ht
              exact hfresh q hq cat (by simp) (hqt ▸ htmem)
            · intro q hq
              rcases List.mem_append.mp hq with h | h
              · exact List.mem_append.mpr (Or.inl (hsub q h))
              · have hq' : q = mkQuestion acc.length cat ((sh cat qs).headD "") := by
                  simpa using h
                subst hq'
                rw [mkQuestion_text]
                simp

theorem selectMedium_nodup (sh : String → List String → List String)
    (extraCat : Nat) (bank : Bank)
    (hsh : ∀ c l, (sh c l).Perm l)
    (hpw : allCategories.Pairwise
      (fun c c' => ∀ t ∈ bankList bank c, t ∉ bankList bank c')) :
    ((selectMedium sh extraCat bank).map Question.text).Nodup := by
  obtain ⟨hnd, hsub⟩ := selectMediumMain_spec sh bank hsh allCategories [] []
    hpw (by simp) (by simp) (by simp)
  unfold selectMedium
  dsimp only
  cases hb : bank (allCategories.getD extraCat "") with
  | none => exact hnd
  | some qs =>
      dsimp only
      by_cases hqs : qs = []
      · rw [if_pos hqs]
        exact hnd
      · rw [if_neg hqs]
        by_cases hav : qs.filter
            (fun q => !((selectMediumMain sh bank allCategories ([], [])).2.contains q)) = []
        · rw [if_pos hav]
          exact hnd
        · rw [if_neg hav]
          rw [List.map_append]
          apply List.Nodup.append hnd (by simp)
          intro t ht ht'
          have hx : t = (sh (allCategories.getD extraCat "")
              (qs.filter (fun q =>
                !((selectMediumMain sh bank allCategories ([], [])).2.contains q)))).headD "" := by
            simpa using ht'
          have htm := shuffled_headD_mem sh hsh (allCategories.getD extraCat "") _ hav
          rw [← hx] at htm
          have htf := List.mem_filter.mp htm
          have hnotin : t ∉ (selectMediumMain sh bank allCategories ([], [])).2 := by
            simpa using htf.2
          obtain ⟨q, hq, hqt⟩ := List.mem_map.mp ht
          exact hnotin (hqt ▸ hsub q hq)

theorem selectHardPick_spec (cat : String) :
    ∀ (ts : List String) (acc : List Question) (texts : List String),
      (selectHardPick cat ts (acc, texts)).1.map Question.text
          = acc.map Question.text ++ ts
      ∧ (selectHardPick cat ts (acc, texts)).1.map Question.category
          = acc.map Question.category ++ ts.map (fun _ => cat)
      ∧ (selectHardPick cat ts (acc, texts)).2 = texts ++ ts := by
  intro ts
  induction ts with
  | nil => intro acc texts; simp [selectHardPick]
  | cons t ts ih =>
      intro acc texts
      unfold selectHardPick
      obtain ⟨h1, h2, h3⟩ := ih (acc ++ [mkQuestion acc.length cat t]) (texts ++ [t])
      refine ⟨?_, ?_, ?_⟩
      · rw [h1]
        simp [mkQuestion_text]
      · rw [h2]
        simp [mkQuestion_category]
      · rw [h3]
        simp

theorem selectHardGo_nodup (sh : String → List String → List String) (bank : Bank)
    (hsh : ∀ c l, (sh c l).Perm l) :
    ∀ (cats : List String) (acc : List Question) (texts : List String),
      (∀ c ∈ cats, (bankList bank c).Nodup) →
      (∀ q ∈ acc, q.text ∈ texts) →
      (acc.map Question.text).Nodup →
      ((selectHardGo sh bank cats (acc, texts)).1.map Question.text).Nodup
      ∧ (∀ q ∈ (selectHardGo sh bank cats (acc, texts)).1,
          q.text ∈ (selectHardGo sh bank cats (acc, texts)).2) := by
  intro cats
  induction cats with
  | nil =>
      intro acc texts _ hsub hnd
      exact ⟨by simpa [selectHardGo] using hnd, by simpa [selectHardGo] using hsub⟩
  | cons cat rest ih =>
      intro acc texts hbn hsub hnd
      unfold selectHardGo
      cases hb : bank cat with
      | none =>
          exact ih acc texts (fun c hc => hbn c (by simp [hc])) hsub hnd
      | some qs =>
          dsimp only
          by_cases hqs : qs = []
          · rw [if_pos hqs]
            exact ih acc texts (fun c hc => hbn c (by simp [hc])) hsub hnd
          · rw [if_neg hqs]
            by_cases hav : qs.filter (fun q => !(texts.contains q)) = []
            · rw [if_pos hav]
              exact ih acc texts (fun c hc => hbn c (by simp [hc])) hsub hnd
            · rw [if_neg hav]
              set available := qs.filter (fun q => !(texts.contains q)) with havdef
              set shuffled := sh cat available with hshdef
              set count := if shuffled.length < 2 then shuffled.length else 2 with hcdef
              set ts := shuffled.take count with htsdef
              obtain ⟨hp1, hp2, hp3⟩ := selectHardPick_spec cat ts acc texts
              have hqsnd : qs.Nodup := by
                have := hbn cat (by simp)
                rwa [bankList, hb] at this
              have havnd : available.Nodup := hqsnd.filter _
              have hshnd : shuffled.Nodup := ((hsh cat available).nodup_iff).mpr havnd
              have htsnd : ts.Nodup := hshnd.sublist (List.take_sublist _ _)
              have htsnotin : ∀ t ∈ ts, t ∉ texts := by
                intro t ht
                have hmem : t ∈ available :=
                  (hsh cat available).subset ((List.take_sublist _ _).subset ht)
                have := (List.mem_filter.mp hmem).2
                simpa using this
              apply ih
              · exact fun c hc => hbn c (by simp [hc])
              · intro q hq
                rw [hp3]
                have hqt : q.text ∈ acc.map Question.text ++ ts := by
                  rw [← hp1]
                  exact List.mem_map.mpr ⟨q, hq, rfl⟩
                rcases List.mem_append.mp hqt with h' | h'
                · obtain ⟨q', hq', he⟩ := List.mem_map.mp h'
                  exact List.mem_append.mpr (Or.inl (he ▸ hsub q' hq'))
                · exact List.mem_append.mpr (Or.inr h')
              · rw [hp1]
                apply List.Nodup.append hnd htsnd
                intro t ht ht'
                obtain ⟨q, hq, hqt⟩ := List.mem_map.mp ht
                exact htsnotin t ht' (hqt ▸ hsub q hq)

/-- Claim C3 fails: the hard-tier take loop filters a category's
questions against previously selected texts once, before taking up to
two entries, so a category list containing the same text twice yields
that text twice.  With the bank mapping "Purpose of Study" to
["X", "X"] (every other category absent) and the identity shuffle — an
admissible outcome of `rand.Shuffle` — the hard tier returns the text
"X" twice. -/
theorem claim_c3_counterexample :
    (SelectQuestionsForSession idShuffle 0 dupTextBank "hard").map Question.text
        = ["X", "X"]
  ∧ ¬ (((SelectQuestionsForSession idShuffle 0 dupTextBank "hard").map
        Question.text).Nodup) := by
  refine ⟨by decide, by decide⟩

/-- Claim C3 (amended): for every tier token and every shuffle outcome,
the selected sequence contains no two questions with identical text,
provided the bank is well-formed: each category's question list is
duplicate-free and no text occurs in two different categories. -/
theorem claim_c3_no_duplicate_texts (sh : String → List String → List String)
    (extraCat : Nat) (bank : Bank) (level : String)
    (hsh : ∀ c l, (sh c l).Perm l)
    (hnd : ∀ c ∈ allCategories, (bankList bank c).Nodup)
    (hdisj : allCategories.Pairwise
      (fun c c' => ∀ t ∈ bankList bank c, t ∉ bankList bank c')) :
    ((SelectQuestionsForSession sh extraCat bank level).map Question.text).Nodup := by
  unfold SelectQuestionsForSession
  split_ifs with h1 h2 h3
  · apply selectEasyGo_nodup sh bank hsh easyCategories []
    · exact hdisj.sublist (show List.Sublist easyCategories allCategories by decide)
    · simp
    · simp
  · exact selectMedium_nodup sh extraCat bank hsh hdisj
  · exact (selectHardGo_nodup sh bank hsh allCategories [] []
      (fun c hc => hnd c hc) (by simp) (by simp)).1
  · simp

/-- Witness for C3: the hard tier over a well-formed six-category bank
with the identity shuffle. -/
theorem claim_c3_witness :
    ((SelectQuestionsForSession idShuffle 0 fullBank "hard").map Question.text).Nodup :=
  claim_c3_no_duplicate_texts idShuffle 0 fullBank "hard"
    (fun _ l => List.Perm.refl l) (by decide) (by decide)

theorem countP_replicate (n : Nat) (a : String) (p : String → Bool) :
    (List.replicate n a).countP p = if p a then n else 0 := by
  induction n with
  | zero => simp
  | succ k ih =>
      simp only [List.replicate_succ, List.countP_cons, ih]
      split_ifs <;> simp_all

theorem take_upTo2_length (l : List String) :
    (l.take (if l.length < 2 then l.length else 2)).length = min 2 l.length := by
  rw [List.length_take]
  split_ifs <;> omega

theorem selectHardGo_count (sh : String → List String → List String) (bank : Bank)
    (hsh : ∀ c l, (sh c l).Perm l) :
    ∀ (cats : List String) (acc : List Question) (texts : List String),
      cats.Pairwise (fun c c' => ∀ t ∈ bankList bank c, t ∉ bankList bank c') →
      (∀ c ∈ cats, ∀ t ∈ texts, t ∉ bankList bank c) →
      (selectHardGo sh bank cats (acc, texts)).1.length
          = acc.length + (cats.map (fun c => min 2 (bankList bank c).length)).sum
      ∧ ∀ name : String,
          (selectHardGo sh bank cats (acc, texts)).1.countP
              (fun q => q.category = name)
            = acc.countP (fun q => q.category = name)
              + ((cats.filter (fun c => c = name)).map
                  (fun c => min 2 (bankList bank c).length)).sum := by
  intro cats
  induction cats with
  | nil =>
      intro acc texts _ _
      constructor
      · simp [selectHardGo]
      · intro name
        simp [selectHardGo]
  | cons cat rest ih =>
      intro acc texts hpw hfr
      rw [List.pairwise_cons] at hpw
      obtain ⟨hdisj, hpw'⟩ := hpw
      unfold selectHardGo
      cases hb : bank cat with
      | none =>
          have hbl : bankList bank cat = [] := by rw [bankList, hb]; rfl
          obtain ⟨ihl, ihc⟩ := ih acc texts hpw' (fun c hc => hfr c (by simp [hc]))
          constructor
          · rw [ihl]
            simp [hbl]
          · intro name
            rw [ihc name]
            by_cases hcn : cat = name
            · subst hcn
              simp [List.filter_cons, hbl]
            · simp [List.filter_cons, hcn, hbl]
      | some qs =>
          dsimp only
          by_cases hqs : qs = []
          · rw [if_pos hqs]
            have hbl : bankList bank cat = [] := by
              rw [bankList, hb, hqs]
              rfl
            obtain ⟨ihl, ihc⟩ := ih acc texts hpw' (fun c hc => hfr c (by simp [hc]))
            constructor
            · rw [ihl]
              simp [hbl]
            · intro name
              rw [ihc name]
              by_cases hcn : cat = name
              · subst hcn
                simp [List.filter_cons, hbl]
              · simp [List.filter_cons, hcn, hbl]
          · rw [if_neg hqs]
            have hbl : bankList bank cat = qs := by
              rw [bankList, hb]
              rfl
            have hfull : qs.filter (fun q => !(texts.contains q)) = qs := by
              apply List.filter_eq_self.mpr
              intro a ha
              have : a ∉ texts := fun hc => hfr cat (by simp) a hc (hbl ▸ ha)
              simpa using this
            rw [hfull, if_neg hqs]
            set shuffled := sh cat qs with hshdef
            set count := if shuffled.length < 2 then shuffled.length else 2 with hcdef
            set ts := shuffled.take count with htsdef
            have hlen : ts.length = min 2 qs.length := by
              rw [htsdef, hcdef, take_upTo2_length]
              rw [(hsh cat qs).length_eq]
            obtain ⟨hp1, hp2, hp3⟩ := selectHardPick_spec cat ts acc texts
            have hpl : (selectHardPick cat ts (acc, texts)).1.length
                = acc.length + ts.length := by
              have := congrArg List.length hp1
              simpa using this
            have hts_sub : ∀ t ∈ ts, t ∈ qs := by
              intro t ht
              exact (hsh cat qs).subset ((List.take_sublist _ _).subset ht)
            have hfr' : ∀ c ∈ rest, ∀ t ∈ texts ++ ts, t ∉ bankList bank c := by
              intro c hc t htx
              rcases List.mem_append.mp htx with h | h
              · exact hfr c (by simp [hc]) t h
              · exact hdisj c hc t (hbl ▸ hts_sub t h)
            obtain ⟨ihl, ihc⟩ := ih (selectHardPick cat ts (acc, texts)).1
              (texts ++ ts) hpw' hfr'
            have hstate : (selectHardPick cat ts (acc, texts))
                = ((selectHardPick cat ts (acc, texts)).1, texts ++ ts) := by
              rw [← hp3]
            constructor
            · rw [hstate] at ihl ⊢
              rw [ihl, hpl, hlen]
              simp only [List.map_cons, List.sum_cons, hbl]
              omega
            · intro name
              have ihcn := ihc name
              rw [hstate] at ihcn ⊢
              rw [ihcn]
              have hpc : (selectHardPick cat ts (acc, texts)).1.countP
                  (fun q => q.category = name)
                  = acc.countP (fun q => q.category = name)
                    + (if cat = name then ts.length else 0) := by
                have hm : ((selectHardPick cat ts (acc, texts)).1.map
                    Question.category).countP (fun s => s = name)
                    = (acc.map Question.category).countP (fun s => s = name)
                      + (ts.map (fun _ => cat)).countP (fun s => s = name) := by
                  rw [hp2, List.countP_append]
                rw [List.countP_map, List.countP_map] at hm
                rw [List.map_const'] at hm
                rw [countP_replicate] at hm
                simpa using hm
              rw [hpc]
              by_cases hcn : cat = name
              · subst hcn
                rw [show (if cat = cat then ts.length else 0) = ts.length from if_pos rfl]
                rw [List.filter_cons, if_pos (by simp), List.map_cons, List.sum_cons, hbl]
                omega
              · rw [if_neg hcn]
                simp only [List.filter_cons, decide_eq_true_eq, if_neg hcn]
                omega

/-- Claim C5 fails: every category of `sharedTextBank` holds two
questions, yet the hard tier returns only 10 — "Academic Background"
repeats the two texts of "Purpose of Study", and after the
cross-category `selectedTexts` filter it has no unselected questions
left, so it contributes zero (the shortfall is caused by another
category's selections, not by that category holding fewer than 2
questions). -/
theorem claim_c5_counterexample :
    (∀ c ∈ allCategories, 2 ≤ (bankList sharedTextBank c).length)
  ∧ (SelectQuestionsForSession idShuffle 0 sharedTextBank "hard").length = 10
  ∧ (SelectQuestionsForSession idShuffle 0 sharedTextBank "hard").length ≠ 12 := by
  refine ⟨by decide, by decide, by decide⟩

/-- Claim C5 (amended): provided no question text occurs in two
different categories, the hard (or empty/default) tier gives each of
the 6 categories exactly `min 2 (number of its questions)` questions —
per-category degradation, never a hard failure — and in particular
exactly 12 questions, 2 from each category, when every category holds
at least 2 questions. -/
theorem claim_c5_hard_quota (sh : String → List String → List String)
    (extraCat : Nat) (bank : Bank) (level : String)
    (hlevel : level = "hard" ∨ level = "")
    (hsh : ∀ c l, (sh c l).Perm l)
    (hdisj : allCategories.Pairwise
      (fun c c' => ∀ t ∈ bankList bank c, t ∉ bankList bank c')) :
    (SelectQuestionsForSession sh extraCat bank level).length
        = (allCategories.map (fun c => min 2 (bankList bank c).length)).sum
  ∧ (∀ c ∈ allCategories,
        (SelectQuestionsForSession sh extraCat bank level).countP
            (fun q => q.category = c)
          = min 2 (bankList bank c).length)
  ∧ ((∀ c ∈ allCategories, 2 ≤ (bankList bank c).length) →
        (SelectQuestionsForSession sh extraCat bank level).length = 12
      ∧ ∀ c ∈ allCategories,
          (SelectQuestionsForSession sh extraCat bank level).countP
              (fun q => q.category = c) = 2) := by
  have hsel : SelectQuestionsForSession sh extraCat bank level = selectHard sh bank := by
    rcases hlevel with h | h <;> subst h <;> rfl
  obtain ⟨hlen, hcount⟩ := selectHardGo_count sh bank hsh allCategories [] []
    hdisj (by simp)
  have hl : (selectHard sh bank).length
      = (allCategories.map (fun c => min 2 (bankList bank c).length)).sum := by
    unfold selectHard
    rw [hlen]
    simp
  have hc : ∀ c ∈ allCategories,
      (selectHard sh bank).countP (fun q => q.category = c)
        = min 2 (bankList bank c).length := by
    intro c hcm
    unfold selectHard
    rw [hcount c]
    simp only [List.countP_nil, Nat.zero_add]
    simp only [allCategories, List.mem_cons, List.not_mem_nil, or_false] at hcm
    rcases hcm with rfl | rfl | rfl | rfl | rfl | rfl <;>
      simp [allCategories, List.filter_cons]
  refine ⟨by rw [hsel, hl], fun c hcm => by rw [hsel]; exact hc c hcm, ?_⟩
  intro h2
  constructor
  · rw [hsel, hl]
    rw [List.map_congr_left
      (fun c hcm => min_eq_left (h2 c hcm) :
        ∀ c ∈ allCategories, min 2 (bankList bank c).length = (fun _ => 2) c)]
    decide
  · intro c hcm
    rw [hsel, hc c hcm]
    exact min_eq_left (h2 c hcm)

/-- Witness for C5: the hard tier over a disjoint six-category bank
with two questions per category returns exactly 12 questions. -/
theorem claim_c5_witness :
    (SelectQuestionsForSession idShuffle 0 fullBank "hard").length = 12 :=
  ((claim_c5_hard_quota idShuffle 0 fullBank "hard" (Or.inl rfl)
      (fun _ l => List.Perm.refl l) (by decide)).2.2 (by decide)).1

end AltoAI
